import Mathlib

/-!
Shallow embedding of the CRUD layer of the repository (src/utils/db_operations.py
together with the schema types of src/schemas/schemas.py and the persistent
entities).  The relational store is modelled as an explicit state value; every
write operation is a function from the state to an `Except` value paired with
the successor state, and the transactional decorator `with_transaction` is a
higher-order function over such bodies, committing the successor state on
success and restoring the prior state on failure.

Python `float` price fields are carried opaquely (no arithmetic is ever
performed on them in the code), so they are represented by `Int` to keep
equality decidable.  Python `ValueError` and the SQLAlchemy result-shape
errors are represented by the inductive `Err`.
-/

namespace Alchemy

/-- A row of the `categories` table (entity `Category`): generated integer id
and a name. -/
structure CategoryRow where
  id : Nat
  name : String
deriving DecidableEq, Repr

/-- A row of the `tags` table (entity `Tag`): generated integer id and a
name. -/
structure TagRow where
  id : Nat
  name : String
deriving DecidableEq, Repr

/-- A row of the `products` table.  Modelled from the spec: the relational
variant of the `Product` entity (with the `category_id` foreign key declared
with `ondelete=SET NULL`) is referenced by src/utils/db_operations.py but its
declaration is absent from src/models/models.py, which only contains an
earlier scalar-only iteration; the fields follow spec section 3. -/
structure ProductRow where
  id : Nat
  name : String
  description : Option String
  image_url : Option String
  price_shmeckles : Int
  price_flurbos : Int
  category_id : Option Nat
deriving DecidableEq, Repr

/-- Modelled from the spec: the single-file relational store.  `productTags`
is the many-to-many association table between products and tags (pairs of
product id and tag id, declared with `ondelete=CASCADE` per the module
docstring of db_operations.py); the `next*Id` counters model the generated
integer identities. -/
structure DB where
  products : List ProductRow
  categories : List CategoryRow
  tags : List TagRow
  productTags : List (Nat × Nat)
  nextProductId : Nat
  nextCategoryId : Nat
  nextTagId : Nat
deriving DecidableEq, Repr

/-- Well-formedness of a store state: primary keys are unique and the
id-generation counters dominate every existing id (so a freshly generated id
never collides with an existing row or association entry). -/
def DB.WF (db : DB) : Prop :=
  (db.products.map ProductRow.id).Nodup ∧
  (db.categories.map CategoryRow.id).Nodup ∧
  (db.tags.map TagRow.id).Nodup ∧
  (∀ p ∈ db.products, p.id < db.nextProductId) ∧
  (∀ pt ∈ db.productTags, pt.1 < db.nextProductId)

instance (db : DB) : Decidable db.WF := by
  unfold DB.WF; infer_instance

/- ===== Schema types (src/schemas/schemas.py) ===== -/

/-- Schema `CategoryCreate`. -/
structure CategoryCreate where
  name : String
deriving DecidableEq, Repr

/-- Schema `TagCreate`. -/
structure TagCreate where
  name : String
deriving DecidableEq, Repr

/-- Read schema `Category`. -/
structure Category where
  id : Nat
  name : String
deriving DecidableEq, Repr

/-- Read schema `Tag`. -/
structure Tag where
  id : Nat
  name : String
deriving DecidableEq, Repr

/-- Schema `ProductCreate`: scalar fields plus an optional category id and a
list of tag ids (defaulting to the empty list in the source). -/
structure ProductCreate where
  name : String
  description : Option String
  image_url : Option String
  price_shmeckles : Int
  price_flurbos : Int
  category_id : Option Nat
  tag_ids : List Nat
deriving DecidableEq, Repr

/-- Modelled from the spec: schema `ProductUpdate` is imported by
db_operations.py but absent from src/schemas/schemas.py.  Per spec section
4.4 an update carries the product id, the full scalar state, an optional
category id, and an optional tag-id list (`None` meaning omitted, which the
code distinguishes from the empty list). -/
structure ProductUpdate where
  id : Nat
  name : String
  description : Option String
  image_url : Option String
  price_shmeckles : Int
  price_flurbos : Int
  category_id : Option Nat
  tag_ids : Option (List Nat)
deriving DecidableEq, Repr

/-- Read schema `Product`: scalar fields with the category and the tags
eagerly populated. -/
structure Product where
  id : Nat
  name : String
  description : Option String
  image_url : Option String
  price_shmeckles : Int
  price_flurbos : Int
  category : Option Category
  tags : List Tag
deriving DecidableEq, Repr

/- ===== Errors and transaction outcomes ===== -/

/-- Failures raised by the CRUD layer.  The first three are the `ValueError`s
raised by product_create / product_update (their Russian message strings are
replaced by the ids they interpolate); `multipleResultsFound` stands for the
result-shape errors of `scalar_one_or_none` / `scalar_one`. -/
inductive Err where
  | categoryNotFound (id : Nat)
  | tagsNotFound (ids : List Nat)
  | productNotFound (id : Nat)
  | multipleResultsFound
deriving DecidableEq, Repr

/-- What the transactional wrapper did to the unit-of-work on this
invocation. -/
inductive TxOutcome where
  | committed
  | rolledBack
deriving DecidableEq, Repr

/-- The decorator `with_transaction` of src/utils/db_operations.py: run the
body on a fresh unit-of-work; on normal return commit (keep the successor
state) and return the result; on a raised failure roll back (restore the
prior state) and re-raise the same failure. -/
def with_transaction {α : Type} (f : DB → Except Err (α × DB)) (db : DB) :
    Except Err α × DB × TxOutcome :=
  match f db with
  | Except.ok (a, db2) => (Except.ok a, db2, TxOutcome.committed)
  | Except.error e => (Except.error e, db, TxOutcome.rolledBack)

/- ===== Query helpers ===== -/

/-- `session.get(Model, pk)`: primary-key lookup. -/
def db_get {α : Type} (rows : List α) (key : α → Nat) (i : Nat) : Option α :=
  rows.find? (fun r => key r == i)

/-- `Result.scalar_one_or_none()`: none on zero rows, the row on exactly one,
`MultipleResultsFound` otherwise. -/
def scalar_one_or_none {α : Type} (rows : List α) : Except Err (Option α) :=
  match rows with
  | [] => Except.ok none
  | [r] => Except.ok (some r)
  | _ => Except.error Err.multipleResultsFound

/-- `Result.scalar_one()`: the row on exactly one, an error otherwise
(`NoResultFound` and `MultipleResultsFound` are not distinguished). -/
def scalar_one {α : Type} (rows : List α) : Except Err α :=
  match rows with
  | [r] => Except.ok r
  | _ => Except.error Err.multipleResultsFound

/-- Conversion `Category.model_validate` from an ORM row. -/
def toCategory (c : CategoryRow) : Category :=
  { id := c.id, name := c.name }

/-- Conversion `Tag.model_validate` from an ORM row. -/
def toTag (t : TagRow) : Tag :=
  { id := t.id, name := t.name }

/-- The tag rows related to a product through the association table
(what `selectinload(ProductORM.tags)` populates). -/
def productTagRows (db : DB) (pid : Nat) : List TagRow :=
  (db.productTags.filter (fun pt => pt.1 == pid)).filterMap
    (fun pt => db_get db.tags TagRow.id pt.2)

/-- `Product.model_validate` of a product row loaded with
`selectinload(category)` and `selectinload(tags)`. -/
def productToOut (db : DB) (p : ProductRow) : Product :=
  { id := p.id, name := p.name, description := p.description,
    image_url := p.image_url, price_shmeckles := p.price_shmeckles,
    price_flurbos := p.price_flurbos,
    category := (p.category_id.bind (db_get db.categories CategoryRow.id)).map toCategory,
    tags := (productTagRows db p.id).map toTag }

/- ===== Category CRUD ===== -/

/-- Body of `category_create`: query-before-insert by name; if a category with
this name exists return it, otherwise insert a new row with a generated id. -/
def category_create_body (db : DB) (data : CategoryCreate) :
    Except Err (Category × DB) :=
  match scalar_one_or_none (db.categories.filter (fun c => c.name == data.name)) with
  | Except.error e => Except.error e
  | Except.ok (some existing) => Except.ok (toCategory existing, db)
  | Except.ok none =>
      let newRow : CategoryRow := { id := db.nextCategoryId, name := data.name }
      Except.ok (toCategory newRow,
        { db with categories := db.categories ++ [newRow],
                  nextCategoryId := db.nextCategoryId + 1 })

/-- `category_create`, wrapped by the transactional decorator. -/
def category_create (db : DB) (data : CategoryCreate) :
    Except Err Category × DB × TxOutcome :=
  with_transaction (fun s => category_create_body s data) db

/-- `category_get_all`: read-only, returns every category. -/
def category_get_all (db : DB) : List Category :=
  db.categories.map toCategory

/-- Body of `category_delete`: the dependent products are only counted for
logging; if the category is absent return the sentinel -1, otherwise delete
the row.  The nulling of `category_id` on dependent products is the
`ondelete=SET NULL` behaviour of the store, modelled from the spec (the
relational model declaration is absent from src/models). -/
def category_delete_body (db : DB) (cid : Nat) : Except Err (Int × DB) :=
  match db_get db.categories CategoryRow.id cid with
  | none => Except.ok (-1, db)
  | some _ =>
      Except.ok ((cid : Int),
        { db with
            categories := db.categories.filter (fun c => c.id != cid),
            products := db.products.map (fun p =>
              if p.category_id == some cid then { p with category_id := none } else p) })

/-- `category_delete`, wrapped by the transactional decorator. -/
def category_delete (db : DB) (cid : Nat) : Except Err Int × DB × TxOutcome :=
  with_transaction (fun s => category_delete_body s cid) db

/- ===== Tag CRUD ===== -/

/-- Body of `tag_create`: same query-before-insert-by-name shape as
`category_create_body`. -/
def tag_create_body (db : DB) (data : TagCreate) : Except Err (Tag × DB) :=
  match scalar_one_or_none (db.tags.filter (fun t => t.name == data.name)) with
  | Except.error e => Except.error e
  | Except.ok (some existing) => Except.ok (toTag existing, db)
  | Except.ok none =>
      let newRow : TagRow := { id := db.nextTagId, name := data.name }
      Except.ok (toTag newRow,
        { db with tags := db.tags ++ [newRow],
                  nextTagId := db.nextTagId + 1 })

/-- `tag_create`, wrapped by the transactional decorator. -/
def tag_create (db : DB) (data : TagCreate) : Except Err Tag × DB × TxOutcome :=
  with_transaction (fun s => tag_create_body s data) db

/-- `tag_get_all`: read-only, returns every tag. -/
def tag_get_all (db : DB) : List Tag :=
  db.tags.map toTag

/-- Body of `tag_delete`: select-by-id with `scalar_one_or_none`; sentinel -1
when absent; the removal of the association rows is the `ondelete=CASCADE`
behaviour of the association table, modelled from the spec. -/
def tag_delete_body (db : DB) (tid : Nat) : Except Err (Int × DB) :=
  match scalar_one_or_none (db.tags.filter (fun t => t.id == tid)) with
  | Except.error e => Except.error e
  | Except.ok none => Except.ok (-1, db)
  | Except.ok (some _) =>
      Except.ok ((tid : Int),
        { db with
            tags := db.tags.filter (fun t => t.id != tid),
            productTags := db.productTags.filter (fun pt => pt.2 != tid) })

/-- `tag_delete`, wrapped by the transactional decorator. -/
def tag_delete (db : DB) (tid : Nat) : Except Err Int × DB × TxOutcome :=
  with_transaction (fun s => tag_delete_body s tid) db

/- ===== Product CRUD ===== -/

/-- The batch tag resolution shared by product create and update (step 3 of
product_create and step 4 of product_update): select all tags whose id is in
the given list in one query, compute the set of ids that were not found, and
fail when that set is nonempty (the missing ids replace the interpolated
Python set in the error). -/
def resolve_tags (db : DB) (ids : List Nat) : Except Err (List TagRow) :=
  let found := db.tags.filter (fun t => ids.contains t.id)
  let missing := ids.filter (fun i => !((found.map TagRow.id).contains i))
  if missing.isEmpty then Except.ok found
  else Except.error (Err.tagsNotFound missing.dedup)

/-- Step 2 of `product_create`: the category reference, guarded by the
Python truthiness test `if product_data.category_id:` (both `None` and `0`
are falsy, so the branch is skipped for them); a truthy id that does not
resolve raises the category-not-found failure. -/
def create_category_step (db : DB) (category_id : Option Nat) :
    Except Err (Option Nat) :=
  match category_id with
  | none => Except.ok none
  | some cid =>
      if cid == 0 then Except.ok none   -- 0 is falsy: branch skipped
      else
        match db_get db.categories CategoryRow.id cid with
        | none => Except.error (Err.categoryNotFound cid)
        | some c => Except.ok (some c.id)

/-- Step 3 of `product_create`: the tag set, guarded by the Python
truthiness test on the list (`[]` is falsy, so the batch resolution is
skipped for it). -/
def create_tag_step (db : DB) (tag_ids : List Nat) : Except Err (List TagRow) :=
  if tag_ids.isEmpty then Except.ok []
  else resolve_tags db tag_ids

/-- Body of `product_create`.  Step 2 guards with the Python truthiness test
`if product_data.category_id:` (both `None` and `0` are falsy); step 3 guards
with the truthiness of the list (`[]` is falsy); step 4 persists the row and
the association rows; step 5 reloads the created product with its relations
by id via `scalar_one`. -/
def product_create_body (db : DB) (data : ProductCreate) :
    Except Err (Product × DB) :=
  match create_category_step db data.category_id with
  | Except.error e => Except.error e
  | Except.ok catRef =>
    match create_tag_step db data.tag_ids with
    | Except.error e => Except.error e
    | Except.ok tagRows =>
      -- step 4: persist the row and the association rows; flush generates the id
      let newRow : ProductRow :=
        { id := db.nextProductId, name := data.name,
          description := data.description, image_url := data.image_url,
          price_shmeckles := data.price_shmeckles,
          price_flurbos := data.price_flurbos, category_id := catRef }
      let db2 : DB :=
        { db with
            products := db.products ++ [newRow],
            productTags := db.productTags ++ tagRows.map (fun t => (newRow.id, t.id)),
            nextProductId := db.nextProductId + 1 }
      -- step 5: reload with relations eagerly populated
      match scalar_one (db2.products.filter (fun p => p.id == newRow.id)) with
      | Except.error e => Except.error e
      | Except.ok refreshed => Except.ok (productToOut db2 refreshed, db2)

/-- `product_create`, wrapped by the transactional decorator. -/
def product_create (db : DB) (data : ProductCreate) :
    Except Err Product × DB × TxOutcome :=
  with_transaction (fun s => product_create_body s data) db

/-- `product_get_by_id`: read-only select by id with relations eagerly
loaded; `scalar_one_or_none` yields `none` when absent. -/
def product_get_by_id (db : DB) (pid : Nat) : Except Err (Option Product) :=
  match scalar_one_or_none (db.products.filter (fun p => p.id == pid)) with
  | Except.error e => Except.error e
  | Except.ok none => Except.ok none
  | Except.ok (some p) => Except.ok (some (productToOut db p))

/-- `product_get_all`: read-only, offset/limit pagination, relations eagerly
loaded. -/
def product_get_all (db : DB) (skip : Nat) (limit : Nat) : List Product :=
  ((db.products.drop skip).take limit).map (productToOut db)

/-- Body of `product_delete_by_id`: select-by-id with relations, sentinel -1
when absent; otherwise the association rows are cleared (`tags.clear()` and
the CASCADE of the association table, the latter modelled from the spec) and
the row deleted. -/
def product_delete_by_id_body (db : DB) (pid : Nat) : Except Err (Int × DB) :=
  match scalar_one_or_none (db.products.filter (fun p => p.id == pid)) with
  | Except.error e => Except.error e
  | Except.ok none => Except.ok (-1, db)
  | Except.ok (some _) =>
      Except.ok ((pid : Int),
        { db with
            products := db.products.filter (fun p => p.id != pid),
            productTags := db.productTags.filter (fun pt => pt.1 != pid) })

/-- `product_delete_by_id`, wrapped by the transactional decorator. -/
def product_delete_by_id (db : DB) (pid : Nat) : Except Err Int × DB × TxOutcome :=
  with_transaction (fun s => product_delete_by_id_body s pid) db

/-- Body of `product_update`.  Step 1 fetches the product by primary key and
raises when absent; step 2 overwrites every scalar field from the DTO
unconditionally; step 3 tests `category_id is not None` (so `0` is resolved,
unlike create) and clears the reference in the `None` branch; step 4 tests
`tag_ids is not None`, fully replacing the tag set on a present list and
clearing it in the `None` branch. -/
def product_update_body (db : DB) (data : ProductUpdate) :
    Except Err (Product × DB) :=
  match db_get db.products ProductRow.id data.id with
  | none => Except.error (Err.productNotFound data.id)
  | some existing =>
    -- step 2: scalar overwrite (the DTO dump excludes category_id / tag_ids)
    let updated0 : ProductRow :=
      { existing with
          name := data.name, description := data.description,
          image_url := data.image_url,
          price_shmeckles := data.price_shmeckles,
          price_flurbos := data.price_flurbos }
    -- step 3: category, tested with `is not None`
    let catStep : Except Err (Option Nat) :=
      match data.category_id with
      | some cid =>
          match db_get db.categories CategoryRow.id cid with
          | none => Except.error (Err.categoryNotFound cid)
          | some c => Except.ok (some c.id)
      | none => Except.ok none   -- detach the category
    match catStep with
    | Except.error e => Except.error e
    | Except.ok catRef =>
      let updated : ProductRow := { updated0 with category_id := catRef }
      -- step 4: tags, tested with `is not None`
      let tagStep : Except Err (List TagRow) :=
        match data.tag_ids with
        | some ids => resolve_tags db ids
        | none => Except.ok []   -- clear the tag set
      match tagStep with
      | Except.error e => Except.error e
      | Except.ok newTagRows =>
        let db2 : DB :=
          { db with
              products := db.products.map (fun p =>
                if p.id == data.id then updated else p),
              productTags :=
                db.productTags.filter (fun pt => pt.1 != data.id)
                  ++ newTagRows.map (fun t => (data.id, t.id)) }
        Except.ok (productToOut db2 updated, db2)

/-- `product_update`, wrapped by the transactional decorator. -/
def product_update (db : DB) (data : ProductUpdate) :
    Except Err Product × DB × TxOutcome :=
  with_transaction (fun s => product_update_body s data) db

/- ===== Advanced search ===== -/

/-- One step of SQL LIKE pattern matching over character lists, with an
explicit fuel argument (structural recursion, so concrete applications
evaluate inside the kernel; `likeMatch` supplies sufficient fuel).  A
percent in the pattern matches any, possibly empty, character sequence; an
underscore matches exactly one character; any other pattern character
matches itself only. -/
def likeMatchAux : Nat → List Char → List Char → Bool
  | 0, _, _ => false
  | n + 1, ps, cs =>
    match ps with
    | [] => cs.isEmpty
    | p :: ps2 =>
        if p = '%' then
          likeMatchAux n ps2 cs ||
          (match cs with
           | [] => false
           | _ :: cs2 => likeMatchAux n (p :: ps2) cs2)
        else
          match cs with
          | [] => false
          | c :: cs2 =>
              if p = '_' then likeMatchAux n ps2 cs2
              else p == c && likeMatchAux n ps2 cs2

/-- SQL LIKE matching of a whole string against a whole pattern: the fuel
2 * |pattern| + |string| + 1 strictly dominates the recursion depth of
`likeMatchAux`, each step of which shrinks 2 * |pattern| + |string|. -/
def likeMatch (ps cs : List Char) : Bool :=
  likeMatchAux (2 * ps.length + cs.length + 1) ps cs

/-- `column.ilike(pattern)`: both sides are lowered and matched with SQL
LIKE semantics — percent and underscore characters inside the pattern are
wildcards, exactly as in the program, which never escapes them when it
interpolates the search text into the pattern. -/
def ilike (value : String) (pattern : String) : Bool :=
  likeMatch (pattern.toList.map Char.toLower) (value.toList.map Char.toLower)

/-- Case-insensitive substring containment: the predicate the spec's words
describe ("contains the text case-insensitively").  Used by `specMatches`
to state what the spec claims the search does; the code's own matching is
`ilike`. -/
def ciContains (hay : String) (needle : String) : Bool :=
  decide (List.IsInfix (needle.toList.map Char.toLower)
    (hay.toList.map Char.toLower))

/-- The rows a product contributes to the
`outerjoin(category).outerjoin(tags)` join: its (possibly absent) category
paired with each of its tags, or with no tag when it has none. -/
def joinRows (db : DB) (p : ProductRow) : List (Option CategoryRow × Option TagRow) :=
  let c := p.category_id.bind (db_get db.categories CategoryRow.id)
  match productTagRows db p.id with
  | [] => [(c, none)]
  | ts => ts.map (fun t => (c, some t))

/-- The WHERE clause of `product_search_advanced`: product name, or joined
category name, or joined tag name, matched with `ilike` against the
percent-wrapped pattern (a NULL side of the outer join never matches). -/
def rowMatches (pattern : String) (p : ProductRow)
    (row : Option CategoryRow × Option TagRow) : Bool :=
  ilike p.name pattern ||
  (match row.1 with | some c => ilike c.name pattern | none => false) ||
  (match row.2 with | some t => ilike t.name pattern | none => false)

/-- The spec-side row predicate: the same three-way disjunction with plain
case-insensitive containment of the search text in place of LIKE matching;
the search theorems compare the code's `rowMatches` against it. -/
def rowMatchesCI (search : String) (p : ProductRow)
    (row : Option CategoryRow × Option TagRow) : Bool :=
  ciContains p.name search ||
  (match row.1 with | some c => ciContains c.name search | none => false) ||
  (match row.2 with | some t => ciContains t.name search | none => false)

/-- DISTINCT over the selected product columns, keeping the first row of
each product id (fuel-based structural recursion so concrete applications
evaluate inside the kernel; the list's own length is always enough fuel). -/
def distinctByIdAux : Nat → List ProductRow → List ProductRow
  | _, [] => []
  | 0, _ :: _ => []
  | fuel + 1, p :: rest =>
      p :: distinctByIdAux fuel (rest.filter (fun q => q.id != p.id))

/-- DISTINCT by product identity. -/
def distinctById (l : List ProductRow) : List ProductRow :=
  distinctByIdAux l.length l

/-- `product_search_advanced`: build the pattern percent-search-percent
exactly as the source's f-string does, build the outer-join row set, filter
it by the three-way ilike disjunction, apply DISTINCT by product identity,
then offset and limit, and return the surviving products with relations
loaded. -/
def product_search_advanced (db : DB) (search : String) (skip : Nat)
    (limit : Nat) : List Product :=
  let pattern := "%" ++ search ++ "%"
  let rows := (db.products.map (fun p => (joinRows db p).map (fun r => (p, r)))).flatten
  let kept := rows.filter (fun pr => rowMatches pattern pr.1 pr.2)
  let dist := distinctById (kept.map (fun pr => pr.1))
  ((dist.drop skip).take limit).map (productToOut db)

/-- The search predicate as the spec words it (spec section 4.4): the
product's own name, or its category's name, or one of its tags' names,
contains the search text case-insensitively. -/
def specMatches (db : DB) (search : String) (p : ProductRow) : Bool :=
  ciContains p.name search ||
  (match p.category_id.bind (db_get db.categories CategoryRow.id) with
   | some c => ciContains c.name search
   | none => false) ||
  (productTagRows db p.id).any (fun t => ciContains t.name search)

/- ===== Concrete store fixtures used by witnesses ===== -/

/-- The empty store. -/
def dbE : DB :=
  { products := [], categories := [], tags := [], productTags := [],
    nextProductId := 1, nextCategoryId := 1, nextTagId := 1 }

/-- A store with one product (id 1, in category 1, tagged 1), one category
and two tags. -/
def dbFix : DB :=
  { products := [
      { id := 1, name := "Portal Gun", description := none, image_url := none,
        price_shmeckles := 10, price_flurbos := 20, category_id := some 1 }],
    categories := [{ id := 1, name := "Gadgets" }],
    tags := [{ id := 1, name := "sci" }, { id := 2, name := "fi" }],
    productTags := [(1, 1)],
    nextProductId := 2, nextCategoryId := 2, nextTagId := 3 }

/-- The store of the search example of spec section 8: a product named
"Portal Gun" with no category or tag, a product in a category named
"Portal Accessories", and an unrelated product. -/
def dbSearch : DB :=
  { products := [
      { id := 1, name := "Portal Gun", description := none, image_url := none,
        price_shmeckles := 1, price_flurbos := 1, category_id := none },
      { id := 2, name := "Handle", description := none, image_url := none,
        price_shmeckles := 1, price_flurbos := 1, category_id := some 1 },
      { id := 3, name := "Plumbus", description := none, image_url := none,
        price_shmeckles := 1, price_flurbos := 1, category_id := none }],
    categories := [{ id := 1, name := "Portal Accessories" }],
    tags := [], productTags := [],
    nextProductId := 4, nextCategoryId := 2, nextTagId := 1 }

/- ===== Helper lemmas ===== -/

theorem with_transaction_ok {α : Type} (f : DB → Except Err (α × DB)) (db : DB)
    (a : α) (db2 : DB) (h : f db = Except.ok (a, db2)) :
    with_transaction f db = (Except.ok a, db2, TxOutcome.committed) := by
  simp [with_transaction, h]

theorem with_transaction_error {α : Type} (f : DB → Except Err (α × DB)) (db : DB)
    (e : Err) (h : f db = Except.error e) :
    with_transaction f db = (Except.error e, db, TxOutcome.rolledBack) := by
  simp [with_transaction, h]

theorem with_transaction_ok_inv {α : Type} {f : DB → Except Err (α × DB)} {db : DB}
    {a : α} {db2 : DB} {ev : TxOutcome}
    (h : with_transaction f db = (Except.ok a, db2, ev)) :
    f db = Except.ok (a, db2) ∧ ev = TxOutcome.committed := by
  cases hf : f db with
  | ok x =>
      obtain ⟨b, db3⟩ := x
      rw [with_transaction_ok f db b db3 hf] at h
      simp only [Prod.mk.injEq, Except.ok.injEq] at h
      obtain ⟨h1, h2, h3⟩ := h
      subst h1; subst h2; subst h3
      exact ⟨rfl, rfl⟩
  | error e =>
      rw [with_transaction_error f db e hf] at h
      simp only [Prod.mk.injEq] at h
      exact absurd h.1 (by simp)

theorem db_get_eq_none {α : Type} {rows : List α} {key : α → Nat} {i : Nat} :
    db_get rows key i = none ↔ ∀ r ∈ rows, key r ≠ i := by
  simp [db_get, List.find?_eq_none]

theorem db_get_mem_key {α : Type} {rows : List α} {key : α → Nat} {i : Nat} {r : α}
    (h : db_get rows key i = some r) : r ∈ rows ∧ key r = i := by
  refine ⟨List.mem_of_find?_eq_some h, ?_⟩
  have := List.find?_some h
  simpa using this

theorem db_get_exists {α : Type} {rows : List α} {key : α → Nat} {i : Nat}
    (h : ∃ r ∈ rows, key r = i) : ∃ r, db_get rows key i = some r := by
  have hs : (rows.find? (fun r => key r == i)).isSome := by
    rw [List.find?_isSome]
    obtain ⟨r, hr, hk⟩ := h
    exact ⟨r, hr, by simp [hk]⟩
  obtain ⟨r, hr⟩ := Option.isSome_iff_exists.mp hs
  exact ⟨r, hr⟩

theorem scalar_one_eq {α : Type} {rows : List α} {r : α}
    (h : scalar_one rows = Except.ok r) : rows = [r] := by
  match rows, h with
  | [x], h => simp [scalar_one] at h; rw [h]

/- ===== Claim theorems ===== -/

/-- Claim C1: for every operation body wrapped by the transactional wrapper
and every starting state, when the body returns normally the result is
returned unchanged with the body's successor state committed, and when the
body raises the prior state is restored and the same failure is re-raised;
the single recorded outcome is `committed` exactly when the body returned
normally and `rolledBack` exactly otherwise, so exactly one of commit or
rollback occurs per invocation, never both and never neither. -/
theorem with_transaction_atomicity {α : Type} (f : DB → Except Err (α × DB))
    (db : DB) :
    (∀ a db2, f db = Except.ok (a, db2) →
        with_transaction f db = (Except.ok a, db2, TxOutcome.committed)) ∧
    (∀ e, f db = Except.error e →
        with_transaction f db = (Except.error e, db, TxOutcome.rolledBack)) ∧
    ((with_transaction f db).2.2 = TxOutcome.committed ↔ (f db).isOk = true) ∧
    ((with_transaction f db).2.2 = TxOutcome.rolledBack ↔ (f db).isOk = false) := by
  refine ⟨fun a db2 h => with_transaction_ok f db a db2 h,
          fun e h => with_transaction_error f db e h, ?_, ?_⟩ <;>
    cases h : f db with
    | ok x => obtain ⟨a, db2⟩ := x; simp [with_transaction, h, Except.isOk, Except.toBool]
    | error e => simp [with_transaction, h, Except.isOk, Except.toBool]

/-- Witness for C1 at a concrete succeeding body and a concrete failing
body over the empty store. -/
theorem with_transaction_atomicity_witness :
    with_transaction (fun s => Except.ok ((0 : Nat), s)) dbE
      = (Except.ok 0, dbE, TxOutcome.committed) ∧
    with_transaction (fun _ => (Except.error (Err.productNotFound 1) : Except Err (Nat × DB))) dbE
      = (Except.error (Err.productNotFound 1), dbE, TxOutcome.rolledBack) :=
  ⟨(with_transaction_atomicity (fun s => Except.ok ((0 : Nat), s)) dbE).1 0 dbE rfl,
   (with_transaction_atomicity
      (fun _ => (Except.error (Err.productNotFound 1) : Except Err (Nat × DB))) dbE).2.1
      (Err.productNotFound 1) rfl⟩

/-- Claim C7: updating a product whose id does not resolve fails with the
raised NotFound error (not a sentinel), rolls back, and leaves the store
completely unchanged. -/
theorem product_update_not_found (db : DB) (data : ProductUpdate)
    (h : ∀ p ∈ db.products, p.id ≠ data.id) :
    product_update db data
      = (Except.error (Err.productNotFound data.id), db, TxOutcome.rolledBack) := by
  have hget : db_get db.products ProductRow.id data.id = none := db_get_eq_none.mpr h
  simp only [product_update]
  exact with_transaction_error _ db _ (by simp [product_update_body, hget])

/-- Witness for C7: an update aimed at id 9 over the empty store. -/
theorem product_update_not_found_witness :
    product_update dbE
      { id := 9, name := "Y", description := none, image_url := none,
        price_shmeckles := 3, price_flurbos := 4, category_id := none,
        tag_ids := none }
      = (Except.error (Err.productNotFound 9), dbE, TxOutcome.rolledBack) :=
  product_update_not_found dbE _ (by decide)

/-- Claim C9: for each of the three delete operations, an id that does not
resolve yields the sentinel -1 (a normal, committed return, not a raised
failure) with the store unchanged, and an id that resolves yields the
deleted entity's id. -/
theorem delete_not_found_sentinel (db : DB) (i : Nat) :
    ((∀ p ∈ db.products, p.id ≠ i) →
        product_delete_by_id db i = (Except.ok (-1), db, TxOutcome.committed)) ∧
    ((∀ c ∈ db.categories, c.id ≠ i) →
        category_delete db i = (Except.ok (-1), db, TxOutcome.committed)) ∧
    ((∀ t ∈ db.tags, t.id ≠ i) →
        tag_delete db i = (Except.ok (-1), db, TxOutcome.committed)) ∧
    (∀ p, db.products.filter (fun q => q.id == i) = [p] →
        (product_delete_by_id db i).1 = Except.ok (i : Int)) ∧
    ((∃ c ∈ db.categories, c.id = i) →
        (category_delete db i).1 = Except.ok (i : Int)) ∧
    (∀ t, db.tags.filter (fun q => q.id == i) = [t] →
        (tag_delete db i).1 = Except.ok (i : Int)) := by
  refine ⟨?_, ?_, ?_, ?_, ?_, ?_⟩
  · intro h
    have hf : db.products.filter (fun q => q.id == i) = [] :=
      List.filter_eq_nil_iff.mpr (by intro p hp; simp [h p hp])
    simp only [product_delete_by_id]
    exact with_transaction_ok _ db _ db (by simp [product_delete_by_id_body, hf, scalar_one_or_none])
  · intro h
    have hget : db_get db.categories CategoryRow.id i = none := db_get_eq_none.mpr h
    simp only [category_delete]
    exact with_transaction_ok _ db _ db (by simp [category_delete_body, hget])
  · intro h
    have hf : db.tags.filter (fun q => q.id == i) = [] :=
      List.filter_eq_nil_iff.mpr (by intro t ht; simp [h t ht])
    simp only [tag_delete]
    exact with_transaction_ok _ db _ db (by simp [tag_delete_body, hf, scalar_one_or_none])
  · intro p hp
    simp [product_delete_by_id, with_transaction, product_delete_by_id_body, hp,
      scalar_one_or_none]
  · intro h
    obtain ⟨c, hc⟩ := db_get_exists h
    simp [category_delete, with_transaction, category_delete_body, hc]
  · intro t ht
    simp [tag_delete, with_transaction, tag_delete_body, ht, scalar_one_or_none]

/-- Witness for C9: over the fixture store, id 1 resolves for all three
entities and is returned from each delete, while id 9 resolves for none and
each delete returns the -1 sentinel with the store unchanged. -/
theorem delete_not_found_sentinel_witness :
    (product_delete_by_id dbFix 1).1 = Except.ok 1 ∧
    (category_delete dbFix 1).1 = Except.ok 1 ∧
    (tag_delete dbFix 1).1 = Except.ok 1 ∧
    product_delete_by_id dbFix 9 = (Except.ok (-1), dbFix, TxOutcome.committed) ∧
    category_delete dbFix 9 = (Except.ok (-1), dbFix, TxOutcome.committed) ∧
    tag_delete dbFix 9 = (Except.ok (-1), dbFix, TxOutcome.committed) :=
  ⟨(delete_not_found_sentinel dbFix 1).2.2.2.1
      { id := 1, name := "Portal Gun", description := none, image_url := none,
        price_shmeckles := 10, price_flurbos := 20, category_id := some 1 }
      (by decide),
   (delete_not_found_sentinel dbFix 1).2.2.2.2.1 (by decide),
   (delete_not_found_sentinel dbFix 1).2.2.2.2.2 { id := 1, name := "sci" } (by decide),
   (delete_not_found_sentinel dbFix 9).1 (by decide),
   (delete_not_found_sentinel dbFix 9).2.1 (by decide),
   (delete_not_found_sentinel dbFix 9).2.2.1 (by decide)⟩

/-- Claim C8: deleting a category that resolves succeeds (returning its id),
keeps every product at its position with all scalar fields and tag
associations unchanged, and nulls the category reference of exactly the
formerly-dependent products; no product is deleted.  The detachment is the
spec-modelled `ondelete=SET NULL` behaviour of the store (the relational
model declaration is absent from src/models). -/
theorem category_delete_detaches (db : DB) (cid : Nat)
    (hc : ∃ c ∈ db.categories, c.id = cid) :
    ∃ db2, category_delete db cid = (Except.ok (cid : Int), db2, TxOutcome.committed) ∧
      db2.products.length = db.products.length ∧
      db2.productTags = db.productTags ∧
      ∀ k, ∀ hk : k < db.products.length, ∀ hk2 : k < db2.products.length,
        (db2.products.get ⟨k, hk2⟩).id = (db.products.get ⟨k, hk⟩).id ∧
        (db2.products.get ⟨k, hk2⟩).name = (db.products.get ⟨k, hk⟩).name ∧
        (db2.products.get ⟨k, hk2⟩).description = (db.products.get ⟨k, hk⟩).description ∧
        (db2.products.get ⟨k, hk2⟩).image_url = (db.products.get ⟨k, hk⟩).image_url ∧
        (db2.products.get ⟨k, hk2⟩).price_shmeckles = (db.products.get ⟨k, hk⟩).price_shmeckles ∧
        (db2.products.get ⟨k, hk2⟩).price_flurbos = (db.products.get ⟨k, hk⟩).price_flurbos ∧
        (db2.products.get ⟨k, hk2⟩).category_id
          = (if (db.products.get ⟨k, hk⟩).category_id = some cid then none
             else (db.products.get ⟨k, hk⟩).category_id) := by
  obtain ⟨c, hcget⟩ := db_get_exists hc
  refine ⟨{ db with
      categories := db.categories.filter (fun c2 => c2.id != cid),
      products := db.products.map (fun p =>
        if p.category_id == some cid then { p with category_id := none } else p) },
    ?_, by simp, rfl, ?_⟩
  · simp only [category_delete]
    exact with_transaction_ok _ db _ _ (by simp [category_delete_body, hcget])
  · intro k hk hk2
    simp only [List.get_eq_getElem, List.getElem_map]
    by_cases hp : (db.products[k]).category_id = some cid
    · simp [hp]
    · simp [hp, beq_eq_false_iff_ne.mpr hp]

/-- Witness for C8: deleting category 1 of the fixture store, which has a
dependent product. -/
theorem category_delete_detaches_witness :
    ∃ db2, category_delete dbFix 1 = (Except.ok (1 : Int), db2, TxOutcome.committed) ∧
      db2.products.length = dbFix.products.length := by
  obtain ⟨db2, h1, h2, _, _⟩ := category_delete_detaches dbFix 1 (by decide)
  exact ⟨db2, h1, h2⟩

/-- The product row built from the scalar fields of a `ProductCreate` in
step 1 of product_create, with the id generated at flush time and the
category reference resolved in step 2. -/
def newProductRow (db : DB) (dc : ProductCreate) (catRef : Option Nat) : ProductRow :=
  { id := db.nextProductId, name := dc.name, description := dc.description,
    image_url := dc.image_url, price_shmeckles := dc.price_shmeckles,
    price_flurbos := dc.price_flurbos, category_id := catRef }

/-- Claim C10: product create and product update disagree on the edge input
category id 0 when no category with id 0 exists: create treats the zero id
as falsy and commits the product with a null category reference, while
update resolves it, raises the category-not-found validation failure, and
rolls back. -/
theorem create_update_zero_category_divergence (db : DB)
    (dc : ProductCreate) (du : ProductUpdate)
    (hwf : DB.WF db)
    (hdc : dc.category_id = some 0) (hdt : dc.tag_ids = [])
    (hdu : du.category_id = some 0)
    (hno0 : ∀ c ∈ db.categories, c.id ≠ 0)
    (hex : ∃ p ∈ db.products, p.id = du.id) :
    (∃ out db2, product_create db dc = (Except.ok out, db2, TxOutcome.committed) ∧
        out.category = none ∧
        ∃ p ∈ db2.products, p.id = out.id ∧ p.category_id = none) ∧
    product_update db du
      = (Except.error (Err.categoryNotFound 0), db, TxOutcome.rolledBack) := by
  constructor
  · have hfil : db.products.filter (fun p => p.id == db.nextProductId) = [] :=
      List.filter_eq_nil_iff.mpr (fun p hp => by
        simp [Nat.ne_of_lt (hwf.2.2.2.1 p hp)])
    have hbody : product_create_body db dc =
        Except.ok (productToOut
          { db with
              products := db.products ++ [newProductRow db dc none],
              productTags := db.productTags ++ [],
              nextProductId := db.nextProductId + 1 }
          (newProductRow db dc none),
          { db with
              products := db.products ++ [newProductRow db dc none],
              productTags := db.productTags ++ [],
              nextProductId := db.nextProductId + 1 }) := by
      simp [product_create_body, create_category_step, create_tag_step, hdc, hdt,
        newProductRow, List.filter_append, hfil, scalar_one]
    refine ⟨productToOut
        { db with
            products := db.products ++ [newProductRow db dc none],
            productTags := db.productTags ++ [],
            nextProductId := db.nextProductId + 1 }
        (newProductRow db dc none),
      { db with
          products := db.products ++ [newProductRow db dc none],
          productTags := db.productTags ++ [],
          nextProductId := db.nextProductId + 1 },
      ?_, ?_, ?_⟩
    · simp only [product_create]
      exact with_transaction_ok _ db _ _ hbody
    · simp [productToOut, newProductRow]
    · exact ⟨newProductRow db dc none, by simp, by simp [productToOut],
        by simp [newProductRow]⟩
  · obtain ⟨p0, hp0⟩ := db_get_exists hex
    have hcat : db_get db.categories CategoryRow.id 0 = none := db_get_eq_none.mpr hno0
    simp only [product_update]
    exact with_transaction_error _ db _ (by simp [product_update_body, hp0, hdu, hcat])

/-- `ProductCreate` input with a zero category id and no tags. -/
def dcZero : ProductCreate :=
  { name := "Meeseeks Box", description := none, image_url := none,
    price_shmeckles := 5, price_flurbos := 6, category_id := some 0,
    tag_ids := [] }

/-- `ProductUpdate` input aimed at product 1 with a zero category id. -/
def duZero : ProductUpdate :=
  { id := 1, name := "Meeseeks Box", description := none, image_url := none,
    price_shmeckles := 5, price_flurbos := 6, category_id := some 0,
    tag_ids := none }

/-- Witness for C10 over the fixture store (which has no category with
id 0 and a product with id 1). -/
theorem create_update_zero_category_divergence_witness :
    (∃ out db2, product_create dbFix dcZero = (Except.ok out, db2, TxOutcome.committed) ∧
        out.category = none ∧
        ∃ p ∈ db2.products, p.id = out.id ∧ p.category_id = none) ∧
    product_update dbFix duZero
      = (Except.error (Err.categoryNotFound 0), dbFix, TxOutcome.rolledBack) :=
  create_update_zero_category_divergence dbFix dcZero duZero (by decide) rfl rfl rfl
    (by decide) (by decide)

/-- `ProductCreate` counterexample input for C2: category id 0 is present
and resolves to nothing, yet create succeeds. -/
def pcZero : ProductCreate :=
  { name := "Portal Gun", description := none, image_url := none,
    price_shmeckles := 1, price_flurbos := 1, category_id := some 0,
    tag_ids := [] }

/-- Counterexample to claim C2 as stated: over the empty store the input
`pcZero` has its category id present (`some 0`) and no category with id 0
exists, yet product create commits instead of failing, and the product row
is persisted (the getAll count grows by one). -/
theorem product_create_unresolved_category_counterexample :
    pcZero.category_id = some 0 ∧
    (∀ c ∈ dbE.categories, c.id ≠ 0) ∧
    (product_create dbE pcZero).2.2 = TxOutcome.committed ∧
    (product_get_all (product_create dbE pcZero).2.1 0 100).length
      = (product_get_all dbE 0 100).length + 1 := by decide

/-- Claim C2 (amended): for every ProductCreate whose category id is present
and non-zero but does not resolve to an existing category, create fails with
the category-not-found validation failure, rolls back, and no product row is
persisted: the store is unchanged and the getAll count is unchanged.  (The
amendment excludes the zero id, which the code's truthiness test treats as
absent; see the counterexample.) -/
theorem product_create_unresolved_category (db : DB) (data : ProductCreate)
    (cid : Nat) (hcid : data.category_id = some cid) (hnz : cid ≠ 0)
    (hmiss : ∀ c ∈ db.categories, c.id ≠ cid) :
    product_create db data
      = (Except.error (Err.categoryNotFound cid), db, TxOutcome.rolledBack) ∧
    (product_get_all (product_create db data).2.1 0 100).length
      = (product_get_all db 0 100).length := by
  have hget : db_get db.categories CategoryRow.id cid = none := db_get_eq_none.mpr hmiss
  have hmain : product_create db data
      = (Except.error (Err.categoryNotFound cid), db, TxOutcome.rolledBack) := by
    simp only [product_create]
    exact with_transaction_error _ db _
      (by simp [product_create_body, create_category_step, hcid,
        beq_eq_false_iff_ne.mpr hnz, hget])
  exact ⟨hmain, by rw [hmain]⟩

/-- Witness for the amended C2: creating over the fixture store with the
unresolved non-zero category id 5 fails and persists nothing. -/
theorem product_create_unresolved_category_witness :
    product_create dbFix { pcZero with category_id := some 5 }
      = (Except.error (Err.categoryNotFound 5), dbFix, TxOutcome.rolledBack) ∧
    (product_get_all (product_create dbFix { pcZero with category_id := some 5 }).2.1 0 100).length
      = (product_get_all dbFix 0 100).length :=
  product_create_unresolved_category dbFix _ 5 rfl (by decide) (by decide)

theorem filter_name_map_toCategory (rows : List CategoryRow) (nm : String) :
    (rows.map toCategory).filter (fun c => c.name == nm)
      = (rows.filter (fun c => c.name == nm)).map toCategory := by
  induction rows with
  | nil => rfl
  | cons r t ih =>
      by_cases h : (r.name == nm) = true
      · simp [toCategory, h, ih]
      · simp [toCategory, h, ih]

theorem filter_name_map_toTag (rows : List TagRow) (nm : String) :
    (rows.map toTag).filter (fun t => t.name == nm)
      = (rows.filter (fun t => t.name == nm)).map toTag := by
  induction rows with
  | nil => rfl
  | cons r t ih =>
      by_cases h : (r.name == nm) = true
      · simp [toTag, h, ih]
      · simp [toTag, h, ih]

/-- Claim C5: Category create and Tag create are idempotent by name, provided
the store does not already hold duplicate rows of that name (the
query-before-insert uses `scalar_one_or_none`, which raises on duplicates):
the first create returns an entity carrying the name, a second create on the
resulting store returns the very same entity (same id), commits, changes
nothing, and getAll afterwards holds exactly one entity of that name. -/
theorem create_idempotent_by_name (db : DB) (nm : String)
    (hc : (db.categories.filter (fun c => c.name == nm)).length ≤ 1)
    (ht : (db.tags.filter (fun t => t.name == nm)).length ≤ 1) :
    (∃ c1 db1 ev1, category_create db { name := nm } = (Except.ok c1, db1, ev1) ∧
       c1.name = nm ∧
       category_create db1 { name := nm } = (Except.ok c1, db1, TxOutcome.committed) ∧
       ((category_get_all db1).filter (fun c => c.name == nm)).length = 1) ∧
    (∃ t1 db1 ev1, tag_create db { name := nm } = (Except.ok t1, db1, ev1) ∧
       t1.name = nm ∧
       tag_create db1 { name := nm } = (Except.ok t1, db1, TxOutcome.committed) ∧
       ((tag_get_all db1).filter (fun t => t.name == nm)).length = 1) := by
  constructor
  · cases hflt : db.categories.filter (fun c => c.name == nm) with
    | nil =>
        refine ⟨toCategory { id := db.nextCategoryId, name := nm },
          { db with
              categories := db.categories ++ [{ id := db.nextCategoryId, name := nm }],
              nextCategoryId := db.nextCategoryId + 1 },
          TxOutcome.committed, ?_, rfl, ?_, ?_⟩
        · simp only [category_create]
          exact with_transaction_ok _ db _ _
            (by simp [category_create_body, hflt, scalar_one_or_none])
        · have hflt1 : (db.categories
              ++ [({ id := db.nextCategoryId, name := nm } : CategoryRow)]).filter
              (fun c => c.name == nm)
              = [({ id := db.nextCategoryId, name := nm } : CategoryRow)] := by
            simp [List.filter_append, hflt]
          simp only [category_create]
          exact with_transaction_ok _ _ _ _
            (by simp [category_create_body, hflt1, scalar_one_or_none, toCategory])
        · simp [category_get_all, filter_name_map_toCategory, List.filter_append,
            hflt, toCategory]
    | cons c rest =>
        have hrest : rest = [] := by
          have h2 := hc
          rw [hflt, List.length_cons] at h2
          exact List.length_eq_zero.mp (by omega)
        subst hrest
        have hcname : c.name = nm := by
          have hmem : c ∈ db.categories.filter (fun c2 => c2.name == nm) := by
            rw [hflt]; exact List.mem_singleton_self c
          exact eq_of_beq (List.mem_filter.mp hmem).2
        refine ⟨toCategory c, db, TxOutcome.committed, ?_, ?_, ?_, ?_⟩
        · simp only [category_create]
          exact with_transaction_ok _ db _ _
            (by simp [category_create_body, hflt, scalar_one_or_none])
        · simpa [toCategory] using hcname
        · simp only [category_create]
          exact with_transaction_ok _ db _ _
            (by simp [category_create_body, hflt, scalar_one_or_none])
        · simp [category_get_all, filter_name_map_toCategory, hflt]
  · cases hflt : db.tags.filter (fun t => t.name == nm) with
    | nil =>
        refine ⟨toTag { id := db.nextTagId, name := nm },
          { db with
              tags := db.tags ++ [{ id := db.nextTagId, name := nm }],
              nextTagId := db.nextTagId + 1 },
          TxOutcome.committed, ?_, rfl, ?_, ?_⟩
        · simp only [tag_create]
          exact with_transaction_ok _ db _ _
            (by simp [tag_create_body, hflt, scalar_one_or_none])
        · have hflt1 : (db.tags
              ++ [({ id := db.nextTagId, name := nm } : TagRow)]).filter
              (fun t => t.name == nm)
              = [({ id := db.nextTagId, name := nm } : TagRow)] := by
            simp [List.filter_append, hflt]
          simp only [tag_create]
          exact with_transaction_ok _ _ _ _
            (by simp [tag_create_body, hflt1, scalar_one_or_none, toTag])
        · simp [tag_get_all, filter_name_map_toTag, List.filter_append, hflt, toTag]
    | cons t rest =>
        have hrest : rest = [] := by
          have h2 := ht
          rw [hflt, List.length_cons] at h2
          exact List.length_eq_zero.mp (by omega)
        subst hrest
        have htname : t.name = nm := by
          have hmem : t ∈ db.tags.filter (fun t2 => t2.name == nm) := by
            rw [hflt]; exact List.mem_singleton_self t
          exact eq_of_beq (List.mem_filter.mp hmem).2
        refine ⟨toTag t, db, TxOutcome.committed, ?_, ?_, ?_, ?_⟩
        · simp only [tag_create]
          exact with_transaction_ok _ db _ _
            (by simp [tag_create_body, hflt, scalar_one_or_none])
        · simpa [toTag] using htname
        · simp only [tag_create]
          exact with_transaction_ok _ db _ _
            (by simp [tag_create_body, hflt, scalar_one_or_none])
        · simp [tag_get_all, filter_name_map_toTag, hflt]

/-- Witness for C5: creating "Electronics" twice over the empty store, for
both categories and tags. -/
theorem create_idempotent_by_name_witness :
    (∃ c1 db1 ev1,
       category_create dbE { name := "Electronics" } = (Except.ok c1, db1, ev1) ∧
       c1.name = "Electronics" ∧
       category_create db1 { name := "Electronics" }
         = (Except.ok c1, db1, TxOutcome.committed) ∧
       ((category_get_all db1).filter (fun c => c.name == "Electronics")).length = 1) ∧
    (∃ t1 db1 ev1,
       tag_create dbE { name := "Electronics" } = (Except.ok t1, db1, ev1) ∧
       t1.name = "Electronics" ∧
       tag_create db1 { name := "Electronics" }
         = (Except.ok t1, db1, TxOutcome.committed) ∧
       ((tag_get_all db1).filter (fun t => t.name == "Electronics")).length = 1) :=
  create_idempotent_by_name dbE "Electronics" (by decide) (by decide)

theorem resolve_tags_ok_inv {db : DB} {ids : List Nat} {out : List TagRow}
    (h : resolve_tags db ids = Except.ok out) :
    (out.map TagRow.id).toFinset = ids.toFinset ∧ ∀ t ∈ out, t ∈ db.tags := by
  rw [resolve_tags] at h
  split at h
  case isTrue hm =>
    simp only [Except.ok.injEq] at h
    subst h
    constructor
    · ext i
      simp only [List.mem_toFinset, List.mem_map, List.mem_filter]
      constructor
      · rintro ⟨t, ⟨_, hc⟩, rfl⟩
        exact List.mem_of_elem_eq_true hc
      · intro hi
        have hm2 := List.isEmpty_iff.mp hm
        have hall := List.filter_eq_nil_iff.mp hm2
        have := hall i hi
        simp only [Bool.not_eq_true', Bool.not_eq_false] at this
        have hcontains : i ∈ (List.filter (fun t => ids.contains t.id) db.tags).map TagRow.id :=
          List.mem_of_elem_eq_true this
        obtain ⟨t, ht, rfl⟩ := List.mem_map.mp hcontains
        exact ⟨t, List.mem_filter.mp ht, rfl⟩
    · intro t ht
      exact (List.mem_filter.mp ht).1
  case isFalse => exact absurd h (by simp)

theorem resolve_tags_error_of_missing {db : DB} {ids : List Nat} {i : Nat}
    (hi : i ∈ ids) (hmiss : ∀ t ∈ db.tags, t.id ≠ i) :
    ∃ ms, resolve_tags db ids = Except.error (Err.tagsNotFound ms) := by
  rw [resolve_tags]
  split
  case isTrue hm =>
    exfalso
    have hm2 := List.isEmpty_iff.mp hm
    have := List.filter_eq_nil_iff.mp hm2 i hi
    simp only [Bool.not_eq_true', Bool.not_eq_false] at this
    have hcontains : i ∈ (List.filter (fun t => ids.contains t.id) db.tags).map TagRow.id :=
      List.mem_of_elem_eq_true this
    obtain ⟨t, ht, hti⟩ := List.mem_map.mp hcontains
    exact hmiss t (List.mem_filter.mp ht).1 hti
  case isFalse => exact ⟨_, rfl⟩

theorem filterMap_assoc_tag_ids (tags : List TagRow) (pid : Nat) (l : List TagRow)
    (h : ∀ t ∈ l, t ∈ tags) :
    ((l.map (fun t => (pid, t.id))).filterMap
        (fun pt => db_get tags TagRow.id pt.2)).map TagRow.id = l.map TagRow.id := by
  induction l with
  | nil => rfl
  | cons t rest ih =>
      have ht : t ∈ tags := h t (by simp)
      obtain ⟨r, hr⟩ := db_get_exists ⟨t, ht, rfl⟩
      have hrid : r.id = t.id := (db_get_mem_key hr).2
      simp only [List.map_cons, List.filterMap_cons, hr, hrid]
      rw [ih (fun x hx => h x (by simp [hx]))]

theorem filter_pt_append_new (pts : List (Nat × Nat)) (d : Nat)
    (news : List (Nat × Nat)) (hnews : ∀ x ∈ news, x.1 = d) :
    ((pts.filter (fun pt => pt.1 != d)) ++ news).filter (fun pt => pt.1 == d)
      = news := by
  rw [List.filter_append]
  have h1 : (pts.filter (fun pt => pt.1 != d)).filter (fun pt => pt.1 == d) = [] := by
    rw [List.filter_filter]
    apply List.filter_eq_nil_iff.mpr
    intro x _
    by_cases hx : (x.1 == d) = true <;> simp [hx, bne]
  have h2 : news.filter (fun pt => pt.1 == d) = news :=
    List.filter_eq_self.mpr (fun x hx => by simp [hnews x hx])
  rw [h1, h2, List.nil_append]

/-- Claim C3: for a successful product update, an omitted (None) tag-id list
leaves the product with an empty tag set, an absent/null category id leaves
the category reference cleared, and a present tag-id list (even empty) fully
replaces the tag set with exactly the given ids after batch resolution;
and an unresolved tag id in a present list fails the whole update (no normal
result, store rolled back unchanged). -/
theorem product_update_relation_semantics (db : DB) (data : ProductUpdate) :
    (∀ out db2 ev, product_update db data = (Except.ok out, db2, ev) →
        (data.tag_ids = none →
            out.tags = [] ∧
            db2.productTags.filter (fun pt => pt.1 == data.id) = []) ∧
        (data.category_id = none →
            out.category = none ∧
            ∀ p ∈ db2.products, p.id = data.id → p.category_id = none) ∧
        (∀ ids, data.tag_ids = some ids →
            ((db2.productTags.filter (fun pt => pt.1 == data.id)).map Prod.snd).toFinset
              = ids.toFinset ∧
            (out.tags.map Tag.id).toFinset = ids.toFinset)) ∧
    (∀ ids i, data.tag_ids = some ids → i ∈ ids → (∀ t ∈ db.tags, t.id ≠ i) →
        (product_update db data).1.isOk = false ∧
        (product_update db data).2.1 = db) := by
  constructor
  · intro out db2 ev h
    simp only [product_update] at h
    have hb := (with_transaction_ok_inv h).1
    cases hget : db_get db.products ProductRow.id data.id with
    | none =>
        simp [product_update_body, hget] at hb
    | some existing =>
        have hexid : existing.id = data.id := (db_get_mem_key hget).2
        simp only [product_update_body, hget] at hb
        cases hcat : data.category_id with
        | none =>
            simp only [hcat] at hb
            cases htag : data.tag_ids with
            | none =>
                simp only [htag, Except.ok.injEq, Prod.mk.injEq] at hb
                obtain ⟨hout, hdb2⟩ := hb
                subst hdb2
                refine ⟨fun _ => ?_, fun _ => ?_, fun ids hids => by simp [htag] at hids⟩
                · constructor
                  · rw [← hout]
                    simp [productToOut, productTagRows, hexid,
                      filter_pt_append_new db.productTags data.id []]
                  · simp [filter_pt_append_new db.productTags data.id []
                        (fun x hx => absurd hx (List.not_mem_nil x))]
                · constructor
                  · rw [← hout]; simp [productToOut]
                  · intro p hp hpid
                    obtain ⟨q, hq, rfl⟩ := List.mem_map.mp hp
                    by_cases hqid : (q.id == data.id) = true
                    · simp [hqid]
                    · simp only [hqid, if_neg] at hpid ⊢
                      simp at hqid
                      exact absurd hpid hqid
            | some ids0 =>
                simp only [htag] at hb
                cases hrt : resolve_tags db ids0 with
                | error e => simp [hrt] at hb
                | ok rows =>
                    simp only [hrt, Except.ok.injEq, Prod.mk.injEq] at hb
                    obtain ⟨hout, hdb2⟩ := hb
                    subst hdb2
                    obtain ⟨hfin, hsub⟩ := resolve_tags_ok_inv hrt
                    have hfilter :
                        ((db.productTags.filter (fun pt => pt.1 != data.id))
                            ++ rows.map (fun t => (data.id, t.id))).filter
                            (fun pt => pt.1 == data.id)
                          = rows.map (fun t => (data.id, t.id)) :=
                      filter_pt_append_new _ _ _ (by intro x hx; obtain ⟨t, _, rfl⟩ := List.mem_map.mp hx; rfl)
                    refine ⟨fun hnil => by simp [htag] at hnil, fun _ => ?_, fun ids hids => ?_⟩
                    · constructor
                      · rw [← hout]; simp [productToOut]
                      · intro p hp hpid
                        obtain ⟨q, hq, rfl⟩ := List.mem_map.mp hp
                        by_cases hqid : (q.id == data.id) = true
                        · simp [hqid]
                        · simp only [hqid, if_neg] at hpid ⊢
                          simp at hqid
                          exact absurd hpid hqid
                    · obtain rfl : ids0 = ids := Option.some.inj hids
                      constructor
                      · rw [hfilter]
                        rw [List.map_map]
                        simpa using hfin
                      · rw [← hout]
                        simp only [productToOut, productTagRows, hexid]
                        rw [hfilter, List.map_map,
                          show (Tag.id ∘ toTag) = TagRow.id from rfl,
                          filterMap_assoc_tag_ids db.tags data.id rows hsub]
                        simpa using hfin
        | some cid =>
            simp only [hcat] at hb
            cases hcg : db_get db.categories CategoryRow.id cid with
            | none => simp [hcg] at hb
            | some c =>
                simp only [hcg] at hb
                cases htag : data.tag_ids with
                | none =>
                    simp only [htag, Except.ok.injEq, Prod.mk.injEq] at hb
                    obtain ⟨hout, hdb2⟩ := hb
                    subst hdb2
                    refine ⟨fun _ => ?_, fun hnone => by simp [hcat] at hnone,
                      fun ids hids => by simp [htag] at hids⟩
                    constructor
                    · rw [← hout]
                      simp [productToOut, productTagRows, hexid,
                        filter_pt_append_new db.productTags data.id []]
                    · simp [filter_pt_append_new db.productTags data.id []
                        (fun x hx => absurd hx (List.not_mem_nil x))]
                | some ids0 =>
                    simp only [htag] at hb
                    cases hrt : resolve_tags db ids0 with
                    | error e => simp [hrt] at hb
                    | ok rows =>
                        simp only [hrt, Except.ok.injEq, Prod.mk.injEq] at hb
                        obtain ⟨hout, hdb2⟩ := hb
                        subst hdb2
                        obtain ⟨hfin, hsub⟩ := resolve_tags_ok_inv hrt
                        have hfilter :
                            ((db.productTags.filter (fun pt => pt.1 != data.id))
                                ++ rows.map (fun t => (data.id, t.id))).filter
                                (fun pt => pt.1 == data.id)
                              = rows.map (fun t => (data.id, t.id)) :=
                          filter_pt_append_new _ _ _ (by intro x hx; obtain ⟨t, _, rfl⟩ := List.mem_map.mp hx; rfl)
                        refine ⟨fun hnil => by simp [htag] at hnil,
                          fun hnone => by simp [hcat] at hnone, fun ids hids => ?_⟩
                        obtain rfl : ids0 = ids := Option.some.inj hids
                        constructor
                        · rw [hfilter]
                          rw [List.map_map]
                          simpa using hfin
                        · rw [← hout]
                          simp only [productToOut, productTagRows, hexid]
                          rw [hfilter, List.map_map,
                            show (Tag.id ∘ toTag) = TagRow.id from rfl,
                            filterMap_assoc_tag_ids db.tags data.id rows hsub]
                          simpa using hfin
  · intro ids i htag hi hmiss
    obtain ⟨ms, hrt⟩ := resolve_tags_error_of_missing hi hmiss
    cases hget : db_get db.products ProductRow.id data.id with
    | none =>
        have hb : product_update_body db data
            = Except.error (Err.productNotFound data.id) := by
          simp [product_update_body, hget]
        simp [product_update, with_transaction, hb, Except.isOk, Except.toBool]
    | some existing =>
        cases hcat : data.category_id with
        | none =>
            have hb : product_update_body db data
                = Except.error (Err.tagsNotFound ms) := by
              simp [product_update_body, hget, hcat, htag, hrt]
            simp [product_update, with_transaction, hb, Except.isOk, Except.toBool]
        | some cid =>
            cases hcg : db_get db.categories CategoryRow.id cid with
            | none =>
                have hb : product_update_body db data
                    = Except.error (Err.categoryNotFound cid) := by
                  simp [product_update_body, hget, hcat, hcg]
                simp [product_update, with_transaction, hb, Except.isOk, Except.toBool]
            | some c =>
                have hb : product_update_body db data
                    = Except.error (Err.tagsNotFound ms) := by
                  simp [product_update_body, hget, hcat, hcg, htag, hrt]
                simp [product_update, with_transaction, hb, Except.isOk, Except.toBool]


/-- `ProductUpdate` input for the C3 witness clearing both relations. -/
def duClear : ProductUpdate :=
  { id := 1, name := "Portal Gun MkII", description := none, image_url := none,
    price_shmeckles := 11, price_flurbos := 21, category_id := none,
    tag_ids := none }

/-- The read schema value returned by the C3 witness update. -/
def outClear : Product :=
  { id := 1, name := "Portal Gun MkII", description := none, image_url := none,
    price_shmeckles := 11, price_flurbos := 21, category := none, tags := [] }

/-- The store state after the C3 witness update. -/
def dbFixCleared : DB :=
  { products := [
      { id := 1, name := "Portal Gun MkII", description := none,
        image_url := none, price_shmeckles := 11, price_flurbos := 21,
        category_id := none }],
    categories := [{ id := 1, name := "Gadgets" }],
    tags := [{ id := 1, name := "sci" }, { id := 2, name := "fi" }],
    productTags := [], nextProductId := 2, nextCategoryId := 2, nextTagId := 3 }

/-- Witness for C3: over the fixture store, an update with omitted tag list
and null category clears both, and an update naming the unresolved tag id 9
fails and leaves the store unchanged. -/
theorem product_update_relation_semantics_witness :
    (product_update dbFix duClear).2.1.productTags.filter
        (fun pt => pt.1 == duClear.id) = [] ∧
    (product_update dbFix { duClear with tag_ids := some [9] }).1.isOk = false ∧
    (product_update dbFix { duClear with tag_ids := some [9] }).2.1 = dbFix := by
  refine ⟨?_, (product_update_relation_semantics dbFix
      { duClear with tag_ids := some [9] }).2 [9] 9 rfl (by decide) (by decide)⟩
  have h := ((product_update_relation_semantics dbFix duClear).1
    outClear dbFixCleared TxOutcome.committed rfl).1 rfl
  rw [show (product_update dbFix duClear).2.1 = dbFixCleared from rfl]
  exact h.2

theorem product_create_body_ok_inv {db : DB} {data : ProductCreate}
    {out : Product} {db2 : DB}
    (h : product_create_body db data = Except.ok (out, db2)) :
    ∃ catRef tagRows refreshed,
      create_tag_step db data.tag_ids = Except.ok tagRows ∧
      db2 = { db with
          products := db.products ++ [newProductRow db data catRef],
          productTags := db.productTags
            ++ tagRows.map (fun t => (db.nextProductId, t.id)),
          nextProductId := db.nextProductId + 1 } ∧
      scalar_one (db2.products.filter (fun p => p.id == db.nextProductId))
        = Except.ok refreshed ∧
      out = productToOut db2 refreshed := by
  cases hcs : create_category_step db data.category_id with
  | error e => simp [product_create_body, hcs] at h
  | ok catRef =>
      cases hts : create_tag_step db data.tag_ids with
      | error e => simp [product_create_body, hcs, hts] at h
      | ok tagRows =>
          simp only [product_create_body, hcs, hts] at h
          simp only [show ∀ cr : Option Nat,
            ({ id := db.nextProductId, name := data.name,
               description := data.description, image_url := data.image_url,
               price_shmeckles := data.price_shmeckles,
               price_flurbos := data.price_flurbos, category_id := cr } : ProductRow)
              = newProductRow db data cr from fun _ => rfl] at h
          cases hso : scalar_one
              ((db.products ++ [newProductRow db data catRef]).filter
                (fun p => p.id == db.nextProductId)) with
          | error e => rw [hso] at h; simp at h
          | ok refreshed =>
              rw [hso] at h
              simp only [Except.ok.injEq, Prod.mk.injEq] at h
              obtain ⟨hout, hdb2⟩ := h
              subst hdb2
              exact ⟨catRef, tagRows, refreshed, rfl, rfl, hso, hout.symm⟩


/-- Claim C6: for every ProductCreate whose create succeeds, the created
product's tag set (both in the returned value and as re-read by getById)
equals exactly the set of the given tag ids, independent of input order;
and if any given tag id does not resolve, the whole create fails (strictly:
no normal result, store rolled back unchanged, no id silently dropped). -/
theorem product_create_tags_spec (db : DB) (data : ProductCreate)
    (hwf : DB.WF db) :
    (∀ out db2 ev, product_create db data = (Except.ok out, db2, ev) →
        (out.tags.map Tag.id).toFinset = data.tag_ids.toFinset ∧
        product_get_by_id db2 out.id = Except.ok (some out)) ∧
    (∀ i, i ∈ data.tag_ids → (∀ t ∈ db.tags, t.id ≠ i) →
        (product_create db data).1.isOk = false ∧
        (product_create db data).2.1 = db) := by
  constructor
  · intro out db2 ev h
    simp only [product_create] at h
    have hb := (with_transaction_ok_inv h).1
    obtain ⟨catRef, tagRows, refreshed, hts, hdb2, hso, hout⟩ :=
      product_create_body_ok_inv hb
    have hfl := scalar_one_eq hso
    have hmem : newProductRow db data catRef
        ∈ db2.products.filter (fun p => p.id == db.nextProductId) := by
      rw [hdb2]
      exact List.mem_filter.mpr
        ⟨List.mem_append_right _ (by simp), by simp [newProductRow]⟩
    have hrefr : refreshed = newProductRow db data catRef := by
      rw [hfl] at hmem
      exact (List.mem_singleton.mp hmem).symm
    subst hrefr
    subst hout
    have hsub : ∀ t ∈ tagRows, t ∈ db.tags := by
      rw [create_tag_step] at hts
      split at hts
      · simp only [Except.ok.injEq] at hts
        subst hts
        intro t ht
        exact absurd ht (List.not_mem_nil t)
      · exact (resolve_tags_ok_inv hts).2
    have hfin2 : (tagRows.map TagRow.id).toFinset = data.tag_ids.toFinset := by
      rw [create_tag_step] at hts
      split at hts
      case isTrue hemp =>
        simp only [Except.ok.injEq] at hts
        subst hts
        simp [List.isEmpty_iff.mp hemp]
      case isFalse => exact (resolve_tags_ok_inv hts).1
    have hptfilter : db2.productTags.filter (fun pt => pt.1 == db.nextProductId)
        = tagRows.map (fun t => (db.nextProductId, t.id)) := by
      rw [hdb2]
      show (db.productTags ++ tagRows.map (fun t => (db.nextProductId, t.id))).filter
          (fun pt => pt.1 == db.nextProductId)
        = tagRows.map (fun t => (db.nextProductId, t.id))
      rw [List.filter_append]
      have h1 : db.productTags.filter (fun pt => pt.1 == db.nextProductId) = [] :=
        List.filter_eq_nil_iff.mpr (fun pt hpt => by
          simp [Nat.ne_of_lt (hwf.2.2.2.2 pt hpt)])
      have h2 : (tagRows.map (fun t => (db.nextProductId, t.id))).filter
          (fun pt => pt.1 == db.nextProductId)
          = tagRows.map (fun t => (db.nextProductId, t.id)) :=
        List.filter_eq_self.mpr (fun x hx => by
          obtain ⟨t, _, rfl⟩ := List.mem_map.mp hx; simp)
      rw [h1, h2, List.nil_append]
    have htagsdb2 : db2.tags = db.tags := by rw [hdb2]
    constructor
    · show ((productToOut db2 (newProductRow db data catRef)).tags.map Tag.id).toFinset
        = data.tag_ids.toFinset
      have hid : (newProductRow db data catRef).id = db.nextProductId := rfl
      simp only [productToOut, productTagRows, hid]
      rw [hptfilter, htagsdb2, List.map_map,
        show (Tag.id ∘ toTag) = TagRow.id from rfl,
        filterMap_assoc_tag_ids db.tags db.nextProductId tagRows hsub]
      exact hfin2
    · show product_get_by_id db2 (productToOut db2 (newProductRow db data catRef)).id
        = Except.ok (some (productToOut db2 (newProductRow db data catRef)))
      have hid : (productToOut db2 (newProductRow db data catRef)).id
          = db.nextProductId := rfl
      rw [product_get_by_id, hid, hfl]
      simp [scalar_one_or_none]
  · intro i hi hmiss
    have hemp : data.tag_ids.isEmpty = false := by
      cases hids : data.tag_ids with
      | nil => rw [hids] at hi; exact absurd hi (List.not_mem_nil i)
      | cons a t => rfl
    obtain ⟨ms, hrt⟩ := resolve_tags_error_of_missing hi hmiss
    have hts : create_tag_step db data.tag_ids
        = Except.error (Err.tagsNotFound ms) := by
      simp [create_tag_step, hemp, hrt]
    cases hcs : create_category_step db data.category_id with
    | error e =>
        have hb : product_create_body db data = Except.error e := by
          simp [product_create_body, hcs]
        simp [product_create, with_transaction, hb, Except.isOk, Except.toBool]
    | ok catRef =>
        have hb : product_create_body db data
            = Except.error (Err.tagsNotFound ms) := by
          simp [product_create_body, hcs, hts]
        simp [product_create, with_transaction, hb, Except.isOk, Except.toBool]


/-- `ProductCreate` input for the C6 witness with the tag ids given in the
order [2, 1]. -/
def pcTags : ProductCreate :=
  { name := "Plumbus", description := none, image_url := none,
    price_shmeckles := 3, price_flurbos := 4, category_id := none,
    tag_ids := [2, 1] }

/-- The read schema value returned by the C6 witness create. -/
def outTags : Product :=
  { id := 2, name := "Plumbus", description := none, image_url := none,
    price_shmeckles := 3, price_flurbos := 4, category := none,
    tags := [{ id := 1, name := "sci" }, { id := 2, name := "fi" }] }

/-- The store state after the C6 witness create. -/
def dbFixPlus : DB :=
  { products := [
      { id := 1, name := "Portal Gun", description := none, image_url := none,
        price_shmeckles := 10, price_flurbos := 20, category_id := some 1 },
      { id := 2, name := "Plumbus", description := none, image_url := none,
        price_shmeckles := 3, price_flurbos := 4, category_id := none }],
    categories := [{ id := 1, name := "Gadgets" }],
    tags := [{ id := 1, name := "sci" }, { id := 2, name := "fi" }],
    productTags := [(1, 1), (2, 1), (2, 2)],
    nextProductId := 3, nextCategoryId := 2, nextTagId := 3 }

/-- Witness for C6: creating with tag ids [2, 1] over the fixture store
yields the tag id set {1, 2} both returned and re-read, and creating with
the unresolved tag id 9 fails and leaves the store unchanged. -/
theorem product_create_tags_spec_witness :
    ((outTags.tags.map Tag.id).toFinset = pcTags.tag_ids.toFinset ∧
     product_get_by_id dbFixPlus outTags.id = Except.ok (some outTags)) ∧
    ((product_create dbFix { pcTags with tag_ids := [9] }).1.isOk = false ∧
     (product_create dbFix { pcTags with tag_ids := [9] }).2.1 = dbFix) :=
  ⟨(product_create_tags_spec dbFix pcTags (by decide)).1 outTags dbFixPlus
      TxOutcome.committed rfl,
   (product_create_tags_spec dbFix { pcTags with tag_ids := [9] } (by decide)).2
      9 (by decide) (by decide)⟩

theorem any_const_or {α : Type} (l : List α) (hne : l ≠ []) (A : Bool)
    (m : α → Bool) : l.any (fun x => A || m x) = (A || l.any m) := by
  cases A with
  | true =>
      simp only [Bool.true_or, List.any_eq_true]
      obtain ⟨x, hx⟩ := List.exists_mem_of_ne_nil l hne
      exact ⟨x, hx, trivial⟩
  | false => simp

theorem distinctByIdAux_fuel : ∀ n m : Nat, ∀ l : List ProductRow,
    l.length ≤ n → l.length ≤ m → distinctByIdAux n l = distinctByIdAux m l := by
  intro n
  induction n with
  | zero =>
      intro m l hn _
      cases l with
      | nil => cases m <;> rfl
      | cons p r => simp at hn
  | succ n ih =>
      intro m l hn hm
      cases l with
      | nil => cases m <;> rfl
      | cons p rest =>
          cases m with
          | zero => simp at hm
          | succ m =>
              simp only [distinctByIdAux]
              congr 1
              exact ih m _
                (le_trans (List.length_filter_le _ _)
                  (Nat.le_of_succ_le_succ (by simpa using hn)))
                (le_trans (List.length_filter_le _ _)
                  (Nat.le_of_succ_le_succ (by simpa using hm)))

theorem distinctById_nil : distinctById [] = [] := rfl

theorem distinctById_cons (p : ProductRow) (rest : List ProductRow) :
    distinctById (p :: rest)
      = p :: distinctById (rest.filter (fun q => q.id != p.id)) := by
  show distinctByIdAux (p :: rest).length (p :: rest) = _
  simp only [List.length_cons, distinctByIdAux]
  congr 1
  exact distinctByIdAux_fuel rest.length _ _ (List.length_filter_le _ _) le_rfl

theorem any_map_poly {α β : Type} (l : List α) (f : α → β) (p : β → Bool) :
    (l.map f).any p = l.any (p ∘ f) := by
  induction l with
  | nil => rfl
  | cons a t ih => simp only [List.map_cons, List.any_cons, ih, Function.comp]

theorem joinRows_any (db : DB) (s : String) (p : ProductRow) :
    (joinRows db p).any (fun r => rowMatchesCI s p r) = specMatches db s p := by
  rw [joinRows, specMatches]
  cases h : productTagRows db p.id with
  | nil =>
      cases hc : p.category_id.bind (db_get db.categories CategoryRow.id) with
      | none => simp [rowMatchesCI]
      | some c => simp [rowMatchesCI]
  | cons t ts =>
      change ((t :: ts).map (fun t2 =>
          (p.category_id.bind (db_get db.categories CategoryRow.id), some t2))).any
          (fun r => rowMatchesCI s p r) = _
      rw [any_map_poly]
      have hrw : ((fun r => rowMatchesCI s p r) ∘ fun t2 =>
          (p.category_id.bind (db_get db.categories CategoryRow.id), some t2))
          = fun t2 => (ciContains p.name s ||
              (match p.category_id.bind (db_get db.categories CategoryRow.id) with
               | some c => ciContains c.name s
               | none => false)) || ciContains t2.name s := by
        funext t2
        simp only [Function.comp, rowMatchesCI]
      rw [hrw, any_const_or (t :: ts) (by simp), Bool.or_assoc]

theorem kept_map_fst (db : DB) (s : String) (l : List ProductRow) :
    (((l.map (fun p => (joinRows db p).map (fun r => (p, r)))).flatten.filter
        (fun pr => rowMatchesCI s pr.1 pr.2)).map Prod.fst)
      = (l.map (fun p =>
          List.replicate ((joinRows db p).filter (fun r => rowMatchesCI s p r)).length p)).flatten := by
  induction l with
  | nil => rfl
  | cons p rest ih =>
      simp only [List.map_cons, List.flatten_cons, List.filter_append,
        List.map_append, ih]
      congr 1
      rw [List.filter_map, List.map_map]
      have h1 : ((fun pr => rowMatchesCI s (Prod.fst pr) (Prod.snd pr)) ∘ fun r => (p, r))
          = fun r => rowMatchesCI s p r := rfl
      have h2 : (Prod.fst ∘ fun r => ((p, r) : ProductRow × (Option CategoryRow × Option TagRow)))
          = fun _ => p := rfl
      rw [h1, h2, List.map_const']

theorem distinctById_replicate_blocks (k : ProductRow → Nat) (l : List ProductRow)
    (h : (l.map ProductRow.id).Nodup) :
    distinctById ((l.map (fun p => List.replicate (k p) p)).flatten)
      = l.filter (fun p => k p != 0) := by
  induction l with
  | nil => simp [distinctById_nil]
  | cons p rest ih =>
      rw [List.map_cons, List.flatten_cons]
      have hnd : p.id ∉ rest.map ProductRow.id ∧ (rest.map ProductRow.id).Nodup := by
        rw [← List.nodup_cons]
        simpa using h
      have hpid : ∀ q ∈ rest, q.id ≠ p.id := by
        intro q hq hcontra
        exact hnd.1 (List.mem_map.mpr ⟨q, hq, hcontra⟩)
      have hfrest : ((rest.map (fun p2 => List.replicate (k p2) p2)).flatten).filter
          (fun q => q.id != p.id)
          = (rest.map (fun p2 => List.replicate (k p2) p2)).flatten := by
        apply List.filter_eq_self.mpr
        intro q hq
        obtain ⟨blk, hblk, hqblk⟩ := List.mem_flatten.mp hq
        obtain ⟨r, hr, rfl⟩ := List.mem_map.mp hblk
        have : q = r := List.eq_of_mem_replicate hqblk
        subst this
        simp [hpid q hr]
      cases hk : k p with
      | zero =>
          rw [List.replicate_zero, List.nil_append, ih hnd.2]
          have : (k p != 0) = false := by simp [hk]
          simp [List.filter_cons, this]
      | succ m =>
          rw [List.replicate_succ, List.cons_append, distinctById_cons,
            List.filter_append]
          have hfrep : (List.replicate m p).filter (fun q => q.id != p.id) = [] :=
            List.filter_eq_nil_iff.mpr (fun q hq => by
              simp [List.eq_of_mem_replicate hq])
          rw [hfrep, List.nil_append, hfrest, ih hnd.2]
          have : (k p != 0) = true := by simp [hk]
          simp [List.filter_cons, this]

theorem filter_length_bne_zero {α : Type} (q : α → Bool) (l : List α) :
    ((l.filter q).length != 0) = l.any q := by
  induction l with
  | nil => rfl
  | cons a t ih => by_cases h : q a = true <;> simp [List.filter_cons, h, ih]

theorem toNat_ofNat_valid (n : Nat) (h : n.isValidChar) :
    (Char.ofNat n).toNat = n := by
  rw [Char.ofNat, dif_pos h]
  rfl

theorem toLower_ne_wildcard (c : Char) (h1 : c ≠ '%') (h2 : c ≠ '_') :
    c.toLower ≠ '%' ∧ c.toLower ≠ '_' := by
  rw [Char.toLower]
  split
  case isTrue h =>
    have hv : (c.toNat + 32).isValidChar := Or.inl (by omega)
    have hpct : ('%').toNat = 37 := rfl
    have hund : ('_').toNat = 95 := rfl
    constructor <;> intro hc <;>
      { have h3 := congrArg Char.toNat hc
        rw [toNat_ofNat_valid _ hv] at h3
        omega }
  case isFalse => exact ⟨h1, h2⟩

theorem likeMatchAux_succ_nil (n : Nat) (cs : List Char) :
    likeMatchAux (n + 1) [] cs = cs.isEmpty := rfl

theorem likeMatchAux_succ_pct_nil (n : Nat) (ps : List Char) :
    likeMatchAux (n + 1) ('%' :: ps) [] = likeMatchAux n ps [] := by
  simp [likeMatchAux]

theorem likeMatchAux_succ_pct_cons (n : Nat) (ps : List Char) (c : Char)
    (cs : List Char) :
    likeMatchAux (n + 1) ('%' :: ps) (c :: cs)
      = (likeMatchAux n ps (c :: cs) || likeMatchAux n ('%' :: ps) cs) := by
  simp [likeMatchAux]

theorem likeMatchAux_succ_lit_nil (n : Nat) (p : Char) (ps : List Char)
    (hp : p ≠ '%') : likeMatchAux (n + 1) (p :: ps) [] = false := by
  simp [likeMatchAux, hp]

theorem likeMatchAux_succ_und_cons (n : Nat) (p : Char) (ps : List Char)
    (c : Char) (cs : List Char) (hu : p = '_') :
    likeMatchAux (n + 1) (p :: ps) (c :: cs) = likeMatchAux n ps cs := by
  subst hu
  simp [likeMatchAux]

theorem likeMatchAux_succ_lit_cons (n : Nat) (p : Char) (ps : List Char)
    (c : Char) (cs : List Char) (hp : p ≠ '%') (hu : p ≠ '_') :
    likeMatchAux (n + 1) (p :: ps) (c :: cs)
      = (p == c && likeMatchAux n ps cs) := by
  simp [likeMatchAux, hp, hu]

theorem likeMatchAux_fuel : ∀ n m ps cs, 2 * ps.length + cs.length < n →
    2 * ps.length + cs.length < m →
    likeMatchAux n ps cs = likeMatchAux m ps cs := by
  intro n
  induction n with
  | zero => intro m ps cs hn _; omega
  | succ n ih =>
      intro m ps cs hn hm
      cases m with
      | zero => omega
      | succ m =>
          cases ps with
          | nil => rfl
          | cons p ps2 =>
              simp only [List.length_cons] at hn hm
              by_cases hp : p = '%'
              · subst hp
                cases cs with
                | nil =>
                    simp only [List.length_nil] at hn hm
                    rw [likeMatchAux_succ_pct_nil, likeMatchAux_succ_pct_nil,
                      ih m ps2 [] (by simp; omega) (by simp; omega)]
                | cons c cs2 =>
                    simp only [List.length_cons] at hn hm
                    rw [likeMatchAux_succ_pct_cons, likeMatchAux_succ_pct_cons,
                      ih m ps2 (c :: cs2)
                        (by simp only [List.length_cons]; omega)
                        (by simp only [List.length_cons]; omega),
                      ih m ('%' :: ps2) cs2
                        (by simp only [List.length_cons]; omega)
                        (by simp only [List.length_cons]; omega)]
              · cases cs with
                | nil =>
                    rw [likeMatchAux_succ_lit_nil _ _ _ hp,
                      likeMatchAux_succ_lit_nil _ _ _ hp]
                | cons c cs2 =>
                    simp only [List.length_cons] at hn hm
                    by_cases hu : p = '_'
                    · rw [likeMatchAux_succ_und_cons _ _ _ _ _ hu,
                        likeMatchAux_succ_und_cons _ _ _ _ _ hu,
                        ih m ps2 cs2 (by omega) (by omega)]
                    · rw [likeMatchAux_succ_lit_cons _ _ _ _ _ hp hu,
                        likeMatchAux_succ_lit_cons _ _ _ _ _ hp hu,
                        ih m ps2 cs2 (by omega) (by omega)]

theorem likeMatch_eq_aux (N : Nat) (ps cs : List Char)
    (h : 2 * ps.length + cs.length < N) :
    likeMatch ps cs = likeMatchAux N ps cs := by
  rw [likeMatch]
  exact likeMatchAux_fuel _ _ _ _ (by omega) h

theorem likeMatch_nil_pattern (cs : List Char) : likeMatch [] cs = cs.isEmpty := by
  cases cs <;> rfl

theorem likeMatch_pct_nil (ps : List Char) :
    likeMatch ('%' :: ps) [] = likeMatch ps [] := by
  rw [likeMatch_eq_aux (2 * ps.length + 3) ('%' :: ps) []
    (by simp only [List.length_cons, List.length_nil]; omega)]
  rw [show 2 * ps.length + 3 = (2 * ps.length + 2) + 1 from rfl,
    likeMatchAux_succ_pct_nil]
  exact (likeMatch_eq_aux _ _ _ (by simp only [List.length_nil]; omega)).symm

theorem likeMatch_pct_cons (ps : List Char) (c : Char) (cs : List Char) :
    likeMatch ('%' :: ps) (c :: cs)
      = (likeMatch ps (c :: cs) || likeMatch ('%' :: ps) cs) := by
  rw [likeMatch_eq_aux (2 * ps.length + cs.length + 4) ('%' :: ps) (c :: cs)
    (by simp only [List.length_cons]; omega)]
  rw [show 2 * ps.length + cs.length + 4 = (2 * ps.length + cs.length + 3) + 1 from rfl,
    likeMatchAux_succ_pct_cons]
  congr 1
  · exact (likeMatch_eq_aux _ _ _ (by simp only [List.length_cons]; omega)).symm
  · exact (likeMatch_eq_aux _ _ _ (by simp only [List.length_cons]; omega)).symm

theorem likeMatch_lit_nil (p : Char) (ps : List Char) (hp : p ≠ '%') :
    likeMatch (p :: ps) [] = false := by
  rw [likeMatch_eq_aux (2 * ps.length + 3) (p :: ps) []
    (by simp only [List.length_cons, List.length_nil]; omega)]
  rw [show 2 * ps.length + 3 = (2 * ps.length + 2) + 1 from rfl]
  exact likeMatchAux_succ_lit_nil _ _ _ hp

theorem likeMatch_lit_cons (p : Char) (ps : List Char) (c : Char)
    (cs : List Char) (hp : p ≠ '%') (hu : p ≠ '_') :
    likeMatch (p :: ps) (c :: cs) = (p == c && likeMatch ps cs) := by
  rw [likeMatch_eq_aux (2 * ps.length + cs.length + 4) (p :: ps) (c :: cs)
    (by simp only [List.length_cons]; omega)]
  rw [show 2 * ps.length + cs.length + 4 = (2 * ps.length + cs.length + 3) + 1 from rfl,
    likeMatchAux_succ_lit_cons _ _ _ _ _ hp hu]
  congr 1
  exact (likeMatch_eq_aux _ _ _ (by omega)).symm

theorem likeMatch_pct_only (cs : List Char) : likeMatch ['%'] cs = true := by
  induction cs with
  | nil => rfl
  | cons c cs2 ih => rw [likeMatch_pct_cons, likeMatch_nil_pattern, ih]; rfl

theorem likeMatch_pct_tails (qs : List Char) (cs : List Char) :
    likeMatch ('%' :: qs) cs = cs.tails.any (fun t => likeMatch qs t) := by
  induction cs with
  | nil => rw [likeMatch_pct_nil]; simp
  | cons c cs2 ih => rw [likeMatch_pct_cons, ih]; simp

theorem likeMatch_clean_prefix (ws : List Char)
    (hw : ∀ w ∈ ws, w ≠ '%' ∧ w ≠ '_') : ∀ cs : List Char,
    likeMatch (ws ++ ['%']) cs = decide (ws <+: cs) := by
  induction ws with
  | nil =>
      intro cs
      simp only [List.nil_append, likeMatch_pct_only]
      simp [List.nil_prefix]
  | cons w ws2 ih =>
      intro cs
      have hw1 := hw w (by simp)
      cases cs with
      | nil =>
          rw [List.cons_append, likeMatch_lit_nil _ _ hw1.1]
          simp [List.prefix_nil]
      | cons c cs2 =>
          rw [List.cons_append, likeMatch_lit_cons _ _ _ _ hw1.1 hw1.2,
            ih (fun x hx => hw x (by simp [hx])) cs2]
          by_cases h : w = c <;> simp [h, List.cons_prefix_cons]

theorem likeMatch_clean_infix (ls : List Char)
    (hl : ∀ x ∈ ls, x ≠ '%' ∧ x ≠ '_') (cs : List Char) :
    likeMatch ('%' :: (ls ++ ['%'])) cs = decide (List.IsInfix ls cs) := by
  rw [likeMatch_pct_tails]
  have hpt : ∀ t, likeMatch (ls ++ ['%']) t = decide (ls <+: t) :=
    likeMatch_clean_prefix ls hl
  simp only [hpt]
  by_cases h : List.IsInfix ls cs
  · rw [decide_eq_true h]
    obtain ⟨t, hpre, hsuf⟩ := List.infix_iff_prefix_suffix.mp h
    exact List.any_eq_true.mpr ⟨t, (List.mem_tails _ _).mpr hsuf, decide_eq_true hpre⟩
  · rw [decide_eq_false h]
    apply List.any_eq_false.mpr
    intro t ht hdec
    exact h (List.infix_iff_prefix_suffix.mpr
      ⟨t, of_decide_eq_true hdec, (List.mem_tails _ _).mp ht⟩)

theorem ilike_pattern_eq_ciContains (s : String)
    (hclean : ∀ c ∈ s.toList, c ≠ '%' ∧ c ≠ '_') (v : String) :
    ilike v ("%" ++ s ++ "%") = ciContains v s := by
  rw [ilike, ciContains]
  have hlist : ("%" ++ s ++ "%").toList = '%' :: (s.toList ++ ['%']) := by
    show ("%" ++ s ++ "%").data = '%' :: (s.data ++ ['%'])
    rw [String.data_append, String.data_append]
    rfl
  rw [hlist]
  have hmap : ('%' :: (s.toList ++ ['%'])).map Char.toLower
      = '%' :: ((s.toList.map Char.toLower) ++ ['%']) := by
    simp only [List.map_cons, List.map_append]
    rfl
  rw [hmap, likeMatch_clean_infix]
  intro x hx
  obtain ⟨c, hc, rfl⟩ := List.mem_map.mp hx
  exact toLower_ne_wildcard c (hclean c hc).1 (hclean c hc).2

theorem rowMatches_eq_CI (s : String)
    (hclean : ∀ c ∈ s.toList, c ≠ '%' ∧ c ≠ '_') (p : ProductRow)
    (row : Option CategoryRow × Option TagRow) :
    rowMatches ("%" ++ s ++ "%") p row = rowMatchesCI s p row := by
  simp only [rowMatches, rowMatchesCI, ilike_pattern_eq_ciContains s hclean]

/-- Counterexample to claim C4 as stated: the code interpolates the search
text unescaped into the LIKE pattern, so wildcard characters in the text
act as wildcards.  Searching "%" over the portal store returns all three
products (a percent matches every name), while the claim's predicate —
the names containing the text "%" case-insensitively — matches none of
them. -/
theorem product_search_advanced_wildcard_counterexample :
    (product_search_advanced dbSearch "%" 0 100).map Product.id = [1, 2, 3] ∧
    dbSearch.products.filter (specMatches dbSearch "%") = [] := by decide

/-- Claim C4 (amended): over a store with unique product ids and for every
search text free of the SQL LIKE wildcard characters percent and
underscore (which the code passes into the LIKE pattern unescaped — see
the counterexample), searchAdvanced returns exactly the products whose own
name, or whose category's name, or one of whose tags' names contains the
search text case-insensitively (categoryless and tagless products are
still matched on their own name through the outer join); each matching
product appears exactly once, the duplicates produced by the tag join
being removed by product identity before the skip/limit pagination is
applied to the de-duplicated list. -/
theorem product_search_advanced_correct (db : DB) (s : String)
    (skip limit : Nat) (hwf : (db.products.map ProductRow.id).Nodup)
    (hclean : ∀ c ∈ s.toList, c ≠ '%' ∧ c ≠ '_') :
    product_search_advanced db s skip limit
      = (((db.products.filter (specMatches db s)).drop skip).take limit).map
          (productToOut db) ∧
    ((db.products.filter (specMatches db s)).map ProductRow.id).Nodup ∧
    (∀ p ∈ db.products,
       (∃ o ∈ product_search_advanced db s 0 db.products.length, o.id = p.id)
         ↔ specMatches db s p = true) := by
  have hpred : ∀ p ∈ db.products,
      ((((joinRows db p).filter (fun r => rowMatchesCI s p r)).length) != 0)
        = specMatches db s p := fun p _ => by
    rw [filter_length_bne_zero, joinRows_any]
  have hrw : (fun pr : ProductRow × (Option CategoryRow × Option TagRow) =>
        rowMatches ("%" ++ s ++ "%") pr.1 pr.2)
      = (fun pr => rowMatchesCI s pr.1 pr.2) :=
    funext fun pr => rowMatches_eq_CI s hclean pr.1 pr.2
  have hdist : ∀ sk li, product_search_advanced db s sk li
      = (((db.products.filter (specMatches db s)).drop sk).take li).map
          (productToOut db) := by
    intro sk li
    simp only [product_search_advanced]
    rw [hrw]
    rw [kept_map_fst db s db.products]
    rw [distinctById_replicate_blocks
      (fun p => ((joinRows db p).filter (fun r => rowMatchesCI s p r)).length)
      db.products hwf]
    rw [List.filter_congr hpred]
  refine ⟨hdist skip limit, ?_, ?_⟩
  · exact hwf.sublist ((List.filter_sublist _).map _)
  · intro p hp
    rw [hdist 0 db.products.length, List.drop_zero,
      List.take_of_length_le (List.length_filter_le _ _)]
    constructor
    · rintro ⟨o, ho, hoid⟩
      obtain ⟨q, hq, rfl⟩ := List.mem_map.mp ho
      have hq2 := List.mem_filter.mp hq
      have hqp : q = p := List.inj_on_of_nodup_map hwf hq2.1 hp hoid
      rw [← hqp]
      exact hq2.2
    · intro hspec
      exact ⟨productToOut db p,
        List.mem_map.mpr ⟨p, List.mem_filter.mpr ⟨hp, hspec⟩, rfl⟩, rfl⟩

/-- Witness for the amended C4: the spec's portal example store and the
wildcard-free search text "portal"; the two portal-related products are
returned, each exactly once. -/
theorem product_search_advanced_correct_witness :
    product_search_advanced dbSearch "portal" 0 3
      = (((dbSearch.products.filter (specMatches dbSearch "portal")).drop 0).take 3).map
          (productToOut dbSearch) ∧
    (product_search_advanced dbSearch "portal" 0 3).map Product.id = [1, 2] := by
  have h := (product_search_advanced_correct dbSearch "portal" 0 3
    (by decide) (by decide)).1
  exact ⟨h, by rw [h]; decide⟩

end Alchemy
